import Mathlib

/-!
Verification of the OCR tool's core contracts: multi-engine OCR arbitration,
layout segmentation with reading order, and the caller-side per-zone OCR loop
found in `frontend/app.py`.

The backend modules (`backend/main.py`, `backend/preprocessing.py`) are not part
of the available sources; the arbitration and segmentation collaborators are
therefore modelled from the specification.  The caller-side loop, the Word/text
consolidation and the per-zone error handling are embedded directly from
`frontend/app.py`.
-/

namespace OCRTool

/-! ### OCR arbitration (spec §4.2) -/

/-- Normalized output of one OCR backend: recognized lines in vertical order and
the backend's mean per-unit confidence in [0,100] (0 when the backend reports no
confidence). -/
structure OCRLineResult where
  lines : List String
  avg_confidence : Rat
deriving DecidableEq

/-- The aggregate returned by arbitration: per-backend results and the selected
best backend key. -/
structure OCRArbitrationResult where
  by_backend : List (String × OCRLineResult)
  best_backend : String
deriving DecidableEq

/-- Modelled from the spec: the per-backend attempt phase of `run_all_ocr_methods`
(`backend/main.py`, absent from the sources).  The configured backends are a fixed
priority-ordered list; each entry carries its name and the outcome of its
independent recognition attempt (`none` = the backend failed, crashed or timed
out).  A failed backend is simply omitted from `by_backend`. -/
def byBackend (backends : List (String × Option OCRLineResult)) :
    List (String × OCRLineResult) :=
  backends.filterMap (fun b => b.2.map (fun r => (b.1, r)))

/-- Modelled from the spec: selection of the best backend by maximum
`avg_confidence`; a later entry replaces the current best only when strictly
better, so ties are broken in favour of the earlier entry in the fixed
priority list. -/
def selectBest (best : String × OCRLineResult) :
    List (String × OCRLineResult) → String × OCRLineResult
  | [] => best
  | e :: rest =>
      selectBest (if best.2.avg_confidence < e.2.avg_confidence then e else best) rest

/-- Modelled from the spec: `arbitrate_ocr` (`run_all_ocr_methods` in
`backend/main.py`, absent from the sources).  Runs every configured backend,
collects the successful ones into `by_backend`, and selects `best_backend`;
signals `NoUsableResult` when every backend failed. -/
def arbitrate_ocr (backends : List (String × Option OCRLineResult)) :
    Except String OCRArbitrationResult :=
  match byBackend backends with
  | [] => Except.error "NoUsableResult"
  | e :: rest =>
      Except.ok { by_backend := e :: rest, best_backend := (selectBest e rest).1 }

/-! ### Layout segmentation (spec §4.1) -/

/-- The fixed zone-type enumeration. -/
inductive ZoneType where
  | header
  | price
  | date
  | address
  | reference
  | paragraph
  | signature
  | footer
  | unknown
deriving DecidableEq

/-- Axis-aligned rectangle in source-image pixel space. -/
structure Rect where
  x : Nat
  y : Nat
  width : Nat
  height : Nat
deriving DecidableEq

/-- The directory-independent data of a detected zone: id, rectangle, type and
classifier confidence. -/
structure ZoneCore where
  zone_id : Nat
  rect : Rect
  ztype : ZoneType
  conf : Rat
deriving DecidableEq

/-- A zone as returned to the caller, with the persisted crop location. -/
structure Zone where
  zone_id : Nat
  coordinates : Rect
  ztype : ZoneType
  confidence : Rat
  crop_path : String
deriving DecidableEq

/-- Modelled from the spec: the zone-construction stage of `detect_text_zones`
(`backend/preprocessing.py`, absent from the sources).  Detected rectangles are
numbered consecutively; in intelligent mode each is classified with a type and
confidence, in classical mode the type is `unknown` with confidence 0. -/
def mkCores (classify : Rect → ZoneType × Rat) (intelligent : Bool) :
    Nat → List Rect → List ZoneCore
  | _, [] => []
  | i, r :: rs =>
      (if intelligent then
        { zone_id := i, rect := r, ztype := (classify r).1, conf := (classify r).2 }
      else
        { zone_id := i, rect := r, ztype := ZoneType.unknown, conf := 0 }) ::
        mkCores classify intelligent (i + 1) rs

/-- Modelled from the spec: the persisted crop path of a zone inside the
caller-specified output directory. -/
def attachPath (outputDir : String) (c : ZoneCore) : Zone :=
  { zone_id := c.zone_id, coordinates := c.rect, ztype := c.ztype,
    confidence := c.conf,
    crop_path := outputDir ++ "/zone_" ++ toString c.zone_id ++ ".png" }

/-- Raster order of top-left corners: top-to-bottom, then left-to-right. -/
def rasterLE (a b : ZoneCore) : Prop :=
  a.rect.y < b.rect.y ∨ (a.rect.y = b.rect.y ∧ a.rect.x ≤ b.rect.x)

instance : DecidableRel rasterLE := fun a b => by
  unfold rasterLE
  exact inferInstance

/-- Left-to-right order inside one row. -/
def xLE (a b : ZoneCore) : Prop :=
  a.rect.x ≤ b.rect.x

instance : DecidableRel xLE := fun a b => Nat.decLe a.rect.x b.rect.x

/-- Length of the intersection of the vertical spans of two rectangles. -/
def vOverlap (a b : Rect) : Nat :=
  min (a.y + a.height) (b.y + b.height) - max a.y b.y

/-- Two rectangles belong to the same row when their vertical spans overlap by
more than 50% of the smaller height (the configurable row-overlap fraction). -/
def sameRow (a b : Rect) : Bool :=
  decide (Nat.min a.height b.height < 2 * vOverlap a b)

/-- Modelled from the spec: grouping of the vertically sorted zones into rows;
a zone joins the row of the next zone below it when their vertical spans overlap
by more than the row-overlap fraction. -/
def groupRows : List ZoneCore → List (List ZoneCore)
  | [] => []
  | z :: rest =>
      match groupRows rest with
      | [] => [[z]]
      | [] :: rows => [z] :: rows
      | (w :: row) :: rows =>
          if sameRow z.rect w.rect then (z :: w :: row) :: rows
          else [z] :: (w :: row) :: rows

/-- A zone classified as a header. -/
def isHeader (c : ZoneCore) : Bool :=
  decide (c.ztype = ZoneType.header)

/-- A zone classified as a signature or a footer. -/
def isEnder (c : ZoneCore) : Bool :=
  decide (c.ztype = ZoneType.signature) || decide (c.ztype = ZoneType.footer)

/-- Modelled from the spec: the intelligent reading order of
`detect_text_zones` (`backend/preprocessing.py`, absent from the sources).
Zones are sorted top-to-bottom, grouped into rows by vertical overlap, ordered
left-to-right within a row, and then the type-priority nudges are applied:
header zones are promoted to the front, signature and footer zones are demoted
to the end. -/
def intelligentOrder (cores : List ZoneCore) : List Nat :=
  let vsorted := List.insertionSort rasterLE cores
  let rows := groupRows vsorted
  let ordered := (rows.map (List.insertionSort xLE)).flatten
  let headers := ordered.filter (fun c => isHeader c)
  let nonheaders := ordered.filter (fun c => !isHeader c)
  let middle := nonheaders.filter (fun c => !isEnder c)
  let enders := nonheaders.filter (fun c => isEnder c)
  (headers ++ middle ++ enders).map ZoneCore.zone_id

/-- Modelled from the spec: the classical reading order — raster order of the
rectangles' top-left corners. -/
def classicalOrder (cores : List ZoneCore) : List Nat :=
  (List.insertionSort rasterLE cores).map ZoneCore.zone_id

/-- Result of one segmentation call. -/
structure SegmentationResult where
  success : Bool
  error : Option String
  zones : List Zone
  reading_order : List Nat
deriving DecidableEq

/-- Modelled from the spec: `segment` / `detect_text_zones`
(`backend/preprocessing.py`, absent from the sources).  `detect` is the
deterministic geometric detection stage (tuned by the document type) and
`classify` the deterministic classification stage; both operate on pixels and
are oracles of the model.  A detection failure yields `success = false` with the
error populated and no partial zones; otherwise the detected rectangles become
zones and the reading order is computed by the selected strategy. -/
def segment (detect : String → Except String (List Rect))
    (classify : Rect → ZoneType × Rat) (documentType : String)
    (useIntelligent : Bool) (outputDir : String) : SegmentationResult :=
  match detect documentType with
  | Except.error e =>
      { success := false, error := some e, zones := [], reading_order := [] }
  | Except.ok rects =>
      let cores := mkCores classify useIntelligent 0 rects
      { success := true, error := none,
        zones := cores.map (attachPath outputDir),
        reading_order :=
          if useIntelligent then intelligentOrder cores else classicalOrder cores }

/-! ### The caller's per-zone OCR loop (`frontend/app.py`) -/

/-- The fields of a segmentation zone used by the caller's loop. -/
structure ZoneRef where
  zone_id : Nat
  path : String
deriving DecidableEq

/-- The tuple returned by `run_all_ocr_methods` for one crop, as consumed by the
loop: the winning method, its lines and its average confidence. -/
structure OcrRun where
  best_method : String
  lines : List String
  avg_conf : Rat
deriving DecidableEq

/-- One value of the `zone_ocr_results` dictionary: either a successful record
or an error record (`frontend/app.py` lines 411–422). -/
inductive ZoneEntry where
  | ok (best_method : String) (best_text : String) (confidence : Rat)
  | err (msg : String)
deriving DecidableEq

/-- The per-zone OCR loop of `frontend/app.py` (lines 407–422): zones whose crop
file does not exist are skipped without any entry; an OCR exception is caught
per zone and stored as an error entry; zone ids are unique within a run, so the
dictionary is represented by this association list in insertion order. -/
def zoneOcrLoop (fsExists : String → Bool)
    (runOcr : String → Except String OcrRun) :
    List ZoneRef → List (Nat × ZoneEntry)
  | [] => []
  | z :: rest =>
      if fsExists z.path then
        (match runOcr z.path with
          | Except.ok r =>
              (z.zone_id,
                ZoneEntry.ok r.best_method (String.intercalate "\n" r.lines) r.avg_conf)
          | Except.error e => (z.zone_id, ZoneEntry.err e)) ::
          zoneOcrLoop fsExists runOcr rest
      else zoneOcrLoop fsExists runOcr rest

/-! ### Consolidated text (`frontend/app.py` lines 548–552) -/

/-- Ascending order on the dictionary keys, as produced by Python's
`sorted(zone_ocr_results.items())` over the unique integer keys. -/
def keyLE (p q : Nat × ZoneEntry) : Prop :=
  p.1 ≤ q.1

instance : DecidableRel keyLE := fun p q => Nat.decLe p.1 q.1

instance : IsTotal (Nat × ZoneEntry) keyLE := ⟨fun a b => Nat.le_total a.1 b.1⟩

instance : IsTrans (Nat × ZoneEntry) keyLE := ⟨fun _ _ _ => Nat.le_trans⟩

/-- Python's `not s.strip()`: the string has no non-whitespace character. -/
def isBlank (s : String) : Bool :=
  s.data.all (fun c => c.isWhitespace)

/-- The block contributed by one dictionary entry to the consolidated text:
error entries and blank texts contribute nothing, a successful entry yields its
tagged text. -/
def entryBlock (zone_id : Nat) (e : ZoneEntry) : Option String :=
  match e with
  | ZoneEntry.ok _ t _ =>
      if isBlank t then none else some ("[Zone " ++ toString zone_id ++ "]\n" ++ t)
  | ZoneEntry.err _ => none

/-- `consolidated_text` of `frontend/app.py` (lines 548–552): the entries sorted
by zone id, the error-free non-blank ones tagged and joined by blank lines. -/
def consolidatedText (results : List (Nat × ZoneEntry)) : String :=
  String.intercalate "\n\n"
    ((List.insertionSort keyLE results).filterMap (fun p => entryBlock p.1 p.2))

/-- The merge order the specification describes: the same blocks concatenated
following the segmentation result's `reading_order`. -/
def readingOrderText (reading_order : List Nat)
    (results : List (Nat × ZoneEntry)) : String :=
  String.intercalate "\n\n"
    (reading_order.filterMap (fun i => (results.lookup i).bind (entryBlock i)))

/-! ### Helper lemmas: arbitration -/

theorem selectBest_conf_le (l : List (String × OCRLineResult)) :
    ∀ best, ∀ x ∈ best :: l,
      x.2.avg_confidence ≤ (selectBest best l).2.avg_confidence := by
  induction l with
  | nil =>
      intro best x hx
      rcases List.mem_singleton.mp hx with rfl
      exact le_refl _
  | cons e rest ih =>
      intro best x hx
      simp only [selectBest]
      by_cases hc : best.2.avg_confidence < e.2.avg_confidence
      · rw [if_pos hc]
        rcases List.mem_cons.mp hx with rfl | hx
        · exact le_trans (le_of_lt hc) (ih e e (List.mem_cons_self e rest))
        · rcases List.mem_cons.mp hx with rfl | hx
          · exact ih x x (List.mem_cons_self x rest)
          · exact ih e x (List.mem_cons_of_mem e hx)
      · rw [if_neg hc]
        rcases List.mem_cons.mp hx with rfl | hx
        · exact ih x x (List.mem_cons_self x rest)
        · rcases List.mem_cons.mp hx with rfl | hx
          · exact le_trans (not_lt.mp hc) (ih best best (List.mem_cons_self best rest))
          · exact ih best x (List.mem_cons_of_mem best hx)

theorem selectBest_first_max (l : List (String × OCRLineResult)) :
    ∀ best, ∃ pre post, best :: l = pre ++ selectBest best l :: post ∧
      ∀ x ∈ pre, x.2.avg_confidence < (selectBest best l).2.avg_confidence := by
  induction l with
  | nil =>
      intro best
      exact ⟨[], [], rfl, by simp⟩
  | cons e rest ih =>
      intro best
      simp only [selectBest]
      by_cases hc : best.2.avg_confidence < e.2.avg_confidence
      · rw [if_pos hc]
        obtain ⟨pre, post, heq, hlt⟩ := ih e
        refine ⟨best :: pre, post, ?_, ?_⟩
        · rw [List.cons_append, ← heq]
        · intro x hx
          rcases List.mem_cons.mp hx with rfl | hx
          · exact lt_of_lt_of_le hc (selectBest_conf_le rest e e (List.mem_cons_self e rest))
          · exact hlt x hx
      · rw [if_neg hc]
        obtain ⟨pre, post, heq, hlt⟩ := ih best
        cases pre with
        | nil =>
            simp only [List.nil_append] at heq
            refine ⟨[], e :: post, ?_, by simp⟩
            have h1 : best = selectBest best rest := (List.cons.injEq _ _ _ _ ▸ heq).1
            have h2 : rest = post := (List.cons.injEq _ _ _ _ ▸ heq).2
            rw [List.nil_append, ← h1, ← h2]
        | cons p pre' =>
            rw [List.cons_append] at heq
            have h1 : best = p := (List.cons.injEq _ _ _ _ ▸ heq).1
            have h2 : rest = pre' ++ selectBest best rest :: post :=
              (List.cons.injEq _ _ _ _ ▸ heq).2
            have hbest : best.2.avg_confidence < (selectBest best rest).2.avg_confidence := by
              have hp := hlt p (List.mem_cons_self p pre')
              rwa [← h1] at hp
            refine ⟨best :: e :: pre', post, ?_, ?_⟩
            · rw [List.cons_append, List.cons_append, ← h2]
            · intro x hx
              rcases List.mem_cons.mp hx with rfl | hx
              · exact hbest
              · rcases List.mem_cons.mp hx with rfl | hx
                · exact lt_of_le_of_lt (not_lt.mp hc) hbest
                · exact hlt x (List.mem_cons_of_mem p hx)

theorem selectBest_mem (l : List (String × OCRLineResult)) (best) :
    selectBest best l ∈ best :: l := by
  obtain ⟨pre, post, heq, -⟩ := selectBest_first_max l best
  rw [heq]
  exact List.mem_append_right pre (List.mem_cons_self _ _)

theorem byBackend_cons_none (b : String × Option OCRLineResult)
    (l : List (String × Option OCRLineResult)) (hb : b.2 = none) :
    byBackend (b :: l) = byBackend l := by
  simp [byBackend, List.filterMap_cons, hb]

theorem byBackend_cons_some (b : String × Option OCRLineResult) (r : OCRLineResult)
    (l : List (String × Option OCRLineResult)) (hb : b.2 = some r) :
    byBackend (b :: l) = (b.1, r) :: byBackend l := by
  simp [byBackend, List.filterMap_cons, hb]

theorem byBackend_append (l₁ l₂ : List (String × Option OCRLineResult)) :
    byBackend (l₁ ++ l₂) = byBackend l₁ ++ byBackend l₂ := by
  simp [byBackend, List.filterMap_append]

theorem byBackend_eq_nil (backends : List (String × Option OCRLineResult)) :
    byBackend backends = [] ↔ ∀ b ∈ backends, b.2 = none := by
  induction backends with
  | nil => simp [byBackend]
  | cons b l ih =>
      cases hb : b.2 with
      | none =>
          rw [byBackend_cons_none b l hb, ih]
          constructor
          · intro h x hx
            rcases List.mem_cons.mp hx with rfl | hx
            · exact hb
            · exact h x hx
          · intro h x hx
            exact h x (List.mem_cons_of_mem b hx)
      | some r =>
          rw [byBackend_cons_some b r l hb]
          constructor
          · intro h; cases h
          · intro h
            have hbn := h b (List.mem_cons_self b l)
            rw [hb] at hbn
            cases hbn

theorem mem_byBackend_fst (backends : List (String × Option OCRLineResult))
    (x : String × OCRLineResult) (hx : x ∈ byBackend backends) :
    x.1 ∈ backends.map Prod.fst := by
  rcases List.mem_filterMap.mp hx with ⟨b, hb, hfb⟩
  cases h2 : b.2 with
  | none => rw [h2] at hfb; simp at hfb
  | some r =>
      rw [h2] at hfb
      simp at hfb
      rw [← hfb]
      exact List.mem_map_of_mem Prod.fst hb

theorem arbitrate_ok_shape (backends : List (String × Option OCRLineResult))
    (r : OCRArbitrationResult) (hr : arbitrate_ocr backends = Except.ok r) :
    r.by_backend = byBackend backends ∧
      ∃ e pre post, r.best_backend = e.1 ∧ r.by_backend = pre ++ e :: post ∧
        (∀ x ∈ r.by_backend, x.2.avg_confidence ≤ e.2.avg_confidence) ∧
        (∀ x ∈ pre, x.2.avg_confidence < e.2.avg_confidence) := by
  unfold arbitrate_ocr at hr
  cases hbb : byBackend backends with
  | nil => rw [hbb] at hr; cases hr
  | cons e0 rest =>
      rw [hbb] at hr
      have hrv : r = { by_backend := e0 :: rest, best_backend := (selectBest e0 rest).1 } := by
        cases hr; rfl
      obtain ⟨pre, post, heq, hlt⟩ := selectBest_first_max rest e0
      refine ⟨by rw [hrv], selectBest e0 rest, pre, post, by rw [hrv], ?_, ?_, hlt⟩
      · rw [hrv]; exact heq
      · intro x hx
        rw [hrv] at hx
        exact selectBest_conf_le rest e0 x hx

theorem arbitrate_error_iff (backends : List (String × Option OCRLineResult)) :
    arbitrate_ocr backends = Except.error "NoUsableResult" ↔
      ∀ b ∈ backends, b.2 = none := by
  rw [← byBackend_eq_nil]
  unfold arbitrate_ocr
  cases hbb : byBackend backends with
  | nil => simp
  | cons e0 rest => simp

/-! ### Claims about arbitration -/

/-- C1: for every `arbitrate_ocr` call in which at least one backend produced a
result, the call returns a non-error result whose `best_backend` is a key of
`by_backend` attaining the maximum `avg_confidence` over all attempted
backends, with every entry of strictly higher (earlier) fixed priority having
strictly smaller confidence — so ties go to the declared priority order, never
to arrival order; no positivity of the maximum is required, so this holds even
when the maximum confidence is 0. -/
theorem c1_best_backend_is_max_with_priority_tiebreak
    (backends : List (String × Option OCRLineResult))
    (h : ∃ b ∈ backends, b.2.isSome) :
    ∃ r e pre post,
      arbitrate_ocr backends = Except.ok r ∧
      r.by_backend = byBackend backends ∧
      r.best_backend = e.1 ∧
      r.by_backend = pre ++ e :: post ∧
      (∀ x ∈ r.by_backend, x.2.avg_confidence ≤ e.2.avg_confidence) ∧
      (∀ x ∈ pre, x.2.avg_confidence < e.2.avg_confidence) := by
  have hne : byBackend backends ≠ [] := by
    obtain ⟨b, hb, hsome⟩ := h
    intro hnil
    rw [byBackend_eq_nil] at hnil
    rw [hnil b hb] at hsome
    cases hsome
  cases hok : arbitrate_ocr backends with
  | error s =>
      exfalso
      unfold arbitrate_ocr at hok
      cases hbb : byBackend backends with
      | nil => exact hne hbb
      | cons e0 rest => rw [hbb] at hok; cases hok
  | ok r =>
      obtain ⟨hby, e, pre, post, hbest, hdec, hmax, hlt⟩ := arbitrate_ok_shape backends r hok
      exact ⟨r, e, pre, post, rfl, hby, hbest, hdec, hmax, hlt⟩

/-- Witness for C1 at a concrete input: two backends both at confidence 0 (an
image with zero legible text); a non-error result is still returned. -/
theorem c1_witness :
    ∃ r e pre post,
      arbitrate_ocr [("tesseract", some ⟨[], 0⟩), ("easyocr", some ⟨[], 0⟩)] =
        Except.ok r ∧
      r.by_backend = byBackend [("tesseract", some ⟨[], 0⟩), ("easyocr", some ⟨[], 0⟩)] ∧
      r.best_backend = e.1 ∧
      r.by_backend = pre ++ e :: post ∧
      (∀ x ∈ r.by_backend, x.2.avg_confidence ≤ e.2.avg_confidence) ∧
      (∀ x ∈ pre, x.2.avg_confidence < e.2.avg_confidence) :=
  c1_best_backend_is_max_with_priority_tiebreak
    [("tesseract", some ⟨[], 0⟩), ("easyocr", some ⟨[], 0⟩)]
    ⟨("tesseract", some ⟨[], 0⟩), by simp, rfl⟩

/-- C2: if every configured backend fails, `arbitrate_ocr` signals
`NoUsableResult`; and whenever it does return a result, `by_backend` is
non-empty and `best_backend` is one of its keys — never null, never fabricated
over an empty mapping. -/
theorem c2_all_fail_signals_no_usable_result
    (backends : List (String × Option OCRLineResult)) :
    ((∀ b ∈ backends, b.2 = none) →
      arbitrate_ocr backends = Except.error "NoUsableResult") ∧
    (∀ r, arbitrate_ocr backends = Except.ok r →
      r.by_backend ≠ [] ∧ r.best_backend ∈ r.by_backend.map Prod.fst) := by
  constructor
  · intro hall
    exact (arbitrate_error_iff backends).mpr hall
  · intro r hr
    obtain ⟨hby, e, pre, post, hbest, hdec, hmax, hlt⟩ := arbitrate_ok_shape backends r hr
    constructor
    · simp [hdec]
    · rw [hbest, hdec, List.map_append]
      exact List.mem_append_right _ (by simp)

/-- Witness for C2 at a concrete input: a single failing backend makes the call
signal `NoUsableResult`. -/
theorem c2_witness :
    arbitrate_ocr [("tesseract", none)] = Except.error "NoUsableResult" :=
  (c2_all_fail_signals_no_usable_result [("tesseract", none)]).1 (by simp)

/-- C6: a deterministically failing backend is isolated: the other backends'
collected results are exactly those computed without it, the failed backend is
absent from `by_backend` and can never be `best_backend`, and the call as a
whole fails precisely when all the remaining backends also fail. -/
theorem c6_backend_failure_isolated
    (pre post : List (String × Option OCRLineResult)) (n : String)
    (hpre : n ∉ pre.map Prod.fst) (hpost : n ∉ post.map Prod.fst) :
    byBackend (pre ++ (n, none) :: post) = byBackend (pre ++ post) ∧
    (∀ r, arbitrate_ocr (pre ++ (n, none) :: post) = Except.ok r →
      n ∉ r.by_backend.map Prod.fst ∧ r.best_backend ≠ n) ∧
    (arbitrate_ocr (pre ++ (n, none) :: post) = Except.error "NoUsableResult" ↔
      ∀ b ∈ pre ++ post, b.2 = none) := by
  have hbb : byBackend (pre ++ (n, none) :: post) = byBackend (pre ++ post) := by
    rw [byBackend_append, byBackend_cons_none ⟨n, none⟩ post rfl, byBackend_append]
  refine ⟨hbb, ?_, ?_⟩
  · intro r hr
    obtain ⟨hby, e, pre', post', hbest, hdec, hmax, hlt⟩ := arbitrate_ok_shape _ r hr
    have hkeys : ∀ x ∈ r.by_backend, x.1 ∈ (pre ++ post).map Prod.fst := by
      intro x hx
      rw [hby, hbb] at hx
      exact mem_byBackend_fst _ x hx
    have hnk : n ∉ r.by_backend.map Prod.fst := by
      intro hn
      rcases List.mem_map.mp hn with ⟨x, hx, hx1⟩
      have hx2 := hkeys x hx
      rw [hx1, List.map_append] at hx2
      rcases List.mem_append.mp hx2 with h1 | h1
      · exact hpre h1
      · exact hpost h1
    refine ⟨hnk, ?_⟩
    intro hbn
    apply hnk
    rw [← hbn, hbest, hdec, List.map_append]
    exact List.mem_append_right _ (by simp)
  · rw [arbitrate_error_iff]
    constructor
    · intro h b hb
      apply h
      rcases List.mem_append.mp hb with h1 | h1
      · exact List.mem_append_left _ h1
      · exact List.mem_append_right _ (List.mem_cons_of_mem _ h1)
    · intro h b hb
      rcases List.mem_append.mp hb with h1 | h1
      · exact h b (List.mem_append_left _ h1)
      · rcases List.mem_cons.mp h1 with rfl | h1
        · rfl
        · exact h b (List.mem_append_right _ h1)

/-- Witness for C6 at a concrete input: the failing backend "paddle" between two
succeeding backends. -/
theorem c6_witness :
    byBackend ([("tesseract", some ⟨["x"], 50⟩)] ++
        ("paddle", none) :: [("easyocr", some ⟨[], 10⟩)]) =
      byBackend ([("tesseract", some ⟨["x"], 50⟩)] ++ [("easyocr", some ⟨[], 10⟩)]) ∧
    (∀ r, arbitrate_ocr ([("tesseract", some ⟨["x"], 50⟩)] ++
        ("paddle", none) :: [("easyocr", some ⟨[], 10⟩)]) = Except.ok r →
      "paddle" ∉ r.by_backend.map Prod.fst ∧ r.best_backend ≠ "paddle") ∧
    (arbitrate_ocr ([("tesseract", some ⟨["x"], 50⟩)] ++
        ("paddle", none) :: [("easyocr", some ⟨[], 10⟩)]) =
        Except.error "NoUsableResult" ↔
      ∀ b ∈ [("tesseract", some (⟨["x"], 50⟩ : OCRLineResult))] ++
          [("easyocr", some (⟨[], 10⟩ : OCRLineResult))],
        b.2 = none) :=
  c6_backend_failure_isolated [("tesseract", some ⟨["x"], 50⟩)]
    [("easyocr", some ⟨[], 10⟩)] "paddle" (by simp) (by simp)

/-! ### Claims about the caller's per-zone OCR loop -/

/-- C8: a failure confined to one zone is caught there and stored as a
zone-level error entry, while every other zone of the document is processed
exactly as it would have been without the failing zone. -/
theorem c8_zone_failure_contained (fsExists : String → Bool)
    (runOcr : String → Except String OcrRun)
    (pre post : List ZoneRef) (z : ZoneRef) (e : String)
    (hfs : fsExists z.path = true) (herr : runOcr z.path = Except.error e) :
    zoneOcrLoop fsExists runOcr (pre ++ z :: post) =
      zoneOcrLoop fsExists runOcr pre ++
        (z.zone_id, ZoneEntry.err e) :: zoneOcrLoop fsExists runOcr post := by
  induction pre with
  | nil =>
      simp only [List.nil_append, zoneOcrLoop, hfs, herr, if_true]
  | cons w rest ih =>
      simp only [List.cons_append, zoneOcrLoop, List.append_eq]
      by_cases hw : fsExists w.path = true
      · simp only [hw, if_true, ih, List.cons_append]
      · simp only [Bool.not_eq_true] at hw
        simp only [hw, Bool.false_eq_true, if_false, ih]

/-- Witness for C8 at a concrete input: the middle zone's OCR raises, the two
neighbouring zones are processed unchanged. -/
theorem c8_witness :
    zoneOcrLoop (fun _ => true)
        (fun p => if p = "bad.png" then Except.error "boom"
          else Except.ok ⟨"tesseract", ["hi"], 80⟩)
        ([⟨1, "a.png"⟩] ++ (⟨2, "bad.png"⟩ : ZoneRef) :: [⟨3, "c.png"⟩]) =
      zoneOcrLoop (fun _ => true)
        (fun p => if p = "bad.png" then Except.error "boom"
          else Except.ok ⟨"tesseract", ["hi"], 80⟩) [⟨1, "a.png"⟩] ++
        (2, ZoneEntry.err "boom") ::
          zoneOcrLoop (fun _ => true)
            (fun p => if p = "bad.png" then Except.error "boom"
              else Except.ok ⟨"tesseract", ["hi"], 80⟩) [⟨3, "c.png"⟩] :=
  c8_zone_failure_contained (fun _ => true)
    (fun p => if p = "bad.png" then Except.error "boom"
      else Except.ok ⟨"tesseract", ["hi"], 80⟩)
    [⟨1, "a.png"⟩] [⟨3, "c.png"⟩] ⟨2, "bad.png"⟩ "boom" rfl (by simp)

/-- C10: a zone whose persisted crop file does not exist at its recorded path is
silently skipped — it contributes neither a success entry nor an error entry,
so the per-zone result mapping can have fewer keys than the segmentation has
zones, with no error recorded for the missing ones. -/
theorem c10_missing_crop_silently_skipped (fsExists : String → Bool)
    (runOcr : String → Except String OcrRun) (zones : List ZoneRef) (i : Nat)
    (h : ∀ w ∈ zones, w.zone_id = i → fsExists w.path = false) :
    i ∉ (zoneOcrLoop fsExists runOcr zones).map Prod.fst ∧
    (zoneOcrLoop fsExists runOcr zones).length ≤ zones.length := by
  induction zones with
  | nil => simp [zoneOcrLoop]
  | cons z rest ih =>
      have hrest := ih (fun w hw hwi => h w (List.mem_cons_of_mem z hw) hwi)
      by_cases hz : fsExists z.path = true
      · have hzi : z.zone_id ≠ i := by
          intro hzi
          rw [h z (List.mem_cons_self z rest) hzi] at hz
          cases hz
        cases hro : runOcr z.path with
        | ok r =>
            simp only [zoneOcrLoop, hz, if_true, hro, List.map_cons, List.length_cons]
            constructor
            · intro hmem
              rcases List.mem_cons.mp hmem with h1 | h1
              · exact hzi h1.symm
              · exact hrest.1 h1
            · exact Nat.succ_le_succ hrest.2
        | error e =>
            simp only [zoneOcrLoop, hz, if_true, hro, List.map_cons, List.length_cons]
            constructor
            · intro hmem
              rcases List.mem_cons.mp hmem with h1 | h1
              · exact hzi h1.symm
              · exact hrest.1 h1
            · exact Nat.succ_le_succ hrest.2
      · simp only [Bool.not_eq_true] at hz
        simp only [zoneOcrLoop, hz, Bool.false_eq_true, if_false]
        exact ⟨hrest.1, Nat.le_succ_of_le hrest.2⟩

/-- Witness for C10 at a concrete input: the only zone's crop file is missing,
so the result mapping is empty — no success entry, no error entry. -/
theorem c10_witness :
    3 ∉ (zoneOcrLoop (fun _ => false) (fun _ => Except.error "unreached")
        [⟨3, "crops/zone_3.png"⟩]).map Prod.fst ∧
    (zoneOcrLoop (fun _ => false) (fun _ => Except.error "unreached")
        [⟨3, "crops/zone_3.png"⟩]).length ≤
      ([⟨3, "crops/zone_3.png"⟩] : List ZoneRef).length :=
  c10_missing_crop_silently_skipped (fun _ => false) (fun _ => Except.error "unreached")
    [⟨3, "crops/zone_3.png"⟩] 3 (fun _ _ _ => rfl)

/-! ### Claims about the document-level merge -/

/-- C5 counterexample: a run whose segmentation `reading_order` is `[2, 1]`
(zone 2 is read first), yet the code's `consolidated_text` concatenates the
zone texts in ascending zone-id order — zone 1 first — so the merge does not
follow `reading_order`. -/
theorem c5_counterexample :
    consolidatedText
        [(1, ZoneEntry.ok "tesseract" "B" 70), (2, ZoneEntry.ok "tesseract" "A" 60)] =
      "[Zone 1]\nB\n\n[Zone 2]\nA" ∧
    readingOrderText [2, 1]
        [(1, ZoneEntry.ok "tesseract" "B" 70), (2, ZoneEntry.ok "tesseract" "A" 60)] =
      "[Zone 2]\nA\n\n[Zone 1]\nB" ∧
    consolidatedText
        [(1, ZoneEntry.ok "tesseract" "B" 70), (2, ZoneEntry.ok "tesseract" "A" 60)] ≠
      readingOrderText [2, 1]
        [(1, ZoneEntry.ok "tesseract" "B" 70), (2, ZoneEntry.ok "tesseract" "A" 60)] := by
  refine ⟨?_, ?_, ?_⟩ <;> decide

/-- C5 amended: the caller merges the per-zone best texts in ascending zone-id
order — the traversal key sequence is sorted — and the merged text is
independent of the insertion (detection) order of the per-zone results; the
segmentation `reading_order` is not consulted. -/
theorem c5_merge_is_in_zone_id_order (l₁ l₂ : List (Nat × ZoneEntry))
    (hperm : l₁.Perm l₂) (hnd : (l₁.map Prod.fst).Nodup) :
    consolidatedText l₁ = consolidatedText l₂ ∧
    List.Sorted (· ≤ ·) ((List.insertionSort keyLE l₁).map Prod.fst) := by
  have hs₁ : List.Sorted keyLE (List.insertionSort keyLE l₁) :=
    List.sorted_insertionSort keyLE l₁
  have hs₂ : List.Sorted keyLE (List.insertionSort keyLE l₂) :=
    List.sorted_insertionSort keyLE l₂
  have hp : (List.insertionSort keyLE l₁).Perm (List.insertionSort keyLE l₂) :=
    ((List.perm_insertionSort keyLE l₁).trans hperm).trans
      (List.perm_insertionSort keyLE l₂).symm
  have hnd₁ : ((List.insertionSort keyLE l₁).map Prod.fst).Nodup :=
    (((List.perm_insertionSort keyLE l₁).map Prod.fst).nodup_iff).mpr hnd
  have hnd₂ : ((List.insertionSort keyLE l₂).map Prod.fst).Nodup :=
    ((hp.map Prod.fst).nodup_iff).mp hnd₁
  have hstrict : ∀ (l : List (Nat × ZoneEntry)), List.Sorted keyLE l →
      (l.map Prod.fst).Nodup →
      List.Pairwise (fun a b : Nat × ZoneEntry => a.1 < b.1) l := by
    intro l hs hn
    have hne : List.Pairwise (fun a b : Nat × ZoneEntry => a.1 ≠ b.1) l :=
      (List.pairwise_map).mp hn
    exact (hs.and hne).imp (fun h => lt_of_le_of_ne h.1 h.2)
  haveI : IsAntisymm (Nat × ZoneEntry) (fun a b => a.1 < b.1) :=
    ⟨fun a b h1 h2 => absurd h1 (Nat.lt_asymm h2)⟩
  have heq : List.insertionSort keyLE l₁ = List.insertionSort keyLE l₂ :=
    List.eq_of_perm_of_sorted hp (hstrict _ hs₁ hnd₁) (hstrict _ hs₂ hnd₂)
  constructor
  · unfold consolidatedText
    rw [heq]
  · exact (List.pairwise_map).mpr hs₁

/-- Witness for the amended C5 at a concrete input: the same two per-zone
results arriving in either detection order merge to the same text, traversed in
ascending id order. -/
theorem c5_witness :
    consolidatedText
        [(2, ZoneEntry.ok "tesseract" "A" 60), (1, ZoneEntry.ok "tesseract" "B" 70)] =
      consolidatedText
        [(1, ZoneEntry.ok "tesseract" "B" 70), (2, ZoneEntry.ok "tesseract" "A" 60)] ∧
    List.Sorted (· ≤ ·)
      ((List.insertionSort keyLE
        [(2, ZoneEntry.ok "tesseract" "A" 60),
          (1, ZoneEntry.ok "tesseract" "B" 70)]).map Prod.fst) :=
  c5_merge_is_in_zone_id_order
    [(2, ZoneEntry.ok "tesseract" "A" 60), (1, ZoneEntry.ok "tesseract" "B" 70)]
    [(1, ZoneEntry.ok "tesseract" "B" 70), (2, ZoneEntry.ok "tesseract" "A" 60)]
    (List.Perm.swap (1, ZoneEntry.ok "tesseract" "B" 70)
      (2, ZoneEntry.ok "tesseract" "A" 60) [])
    (by decide)

/-! ### Helper lemmas: segmentation -/

theorem groupRows_flatten (l : List ZoneCore) : (groupRows l).flatten = l := by
  induction l with
  | nil => rfl
  | cons z rest ih =>
      simp only [groupRows]
      cases hg : groupRows rest with
      | nil =>
          rw [hg] at ih
          simp only [List.flatten_nil] at ih
          simp [← ih]
      | cons row rows =>
          rw [hg] at ih
          cases row with
          | nil =>
              simp only [List.flatten_cons, List.nil_append] at ih
              simp [← ih]
          | cons w row' =>
              cases hs : sameRow z.rect w.rect with
              | true => simp [hs, ← ih]
              | false => simp [hs, ← ih]

theorem flatten_map_sort_perm (rows : List (List ZoneCore)) :
    List.Perm ((rows.map (List.insertionSort xLE)).flatten) rows.flatten := by
  induction rows with
  | nil => exact List.Perm.refl _
  | cons row rows ih =>
      simp only [List.map_cons, List.flatten_cons]
      exact (List.perm_insertionSort xLE row).append ih

theorem intelligentOrder_decomp (cores : List ZoneCore) :
    ∃ l : List ZoneCore, List.Perm l cores ∧
      intelligentOrder cores =
        (l.filter (fun c => isHeader c) ++
          ((l.filter (fun c => !isHeader c)).filter (fun c => !isEnder c) ++
            (l.filter (fun c => !isHeader c)).filter (fun c => isEnder c))).map
          ZoneCore.zone_id := by
  refine ⟨((groupRows (List.insertionSort rasterLE cores)).map
    (List.insertionSort xLE)).flatten, ?_, ?_⟩
  · exact (flatten_map_sort_perm _).trans
      ((groupRows_flatten (List.insertionSort rasterLE cores)).symm ▸
        List.perm_insertionSort rasterLE cores)
  · simp only [intelligentOrder, List.append_assoc]

theorem intelligentOrder_perm (cores : List ZoneCore) :
    List.Perm (intelligentOrder cores) (cores.map ZoneCore.zone_id) := by
  obtain ⟨l, hl, heq⟩ := intelligentOrder_decomp cores
  rw [heq]
  refine List.Perm.map _ ?_
  have h1 : List.Perm
      ((l.filter (fun c => !isHeader c)).filter (fun c => !isEnder c) ++
        (l.filter (fun c => !isHeader c)).filter (fun c => isEnder c))
      (l.filter (fun c => !isHeader c)) := by
    have hfp := List.filter_append_perm (fun c => !isEnder c)
      (l.filter (fun c => !isHeader c))
    simpa [Bool.not_not] using hfp
  have h2 : List.Perm
      (l.filter (fun c => isHeader c) ++ l.filter (fun c => !isHeader c)) l :=
    List.filter_append_perm _ l
  exact ((List.Perm.append_left _ h1).trans h2).trans hl

theorem mkCores_map_id (classify : Rect → ZoneType × Rat) (intel : Bool) :
    ∀ (i : Nat) (rs : List Rect),
      (mkCores classify intel i rs).map ZoneCore.zone_id = List.range' i rs.length := by
  intro i rs
  induction rs generalizing i with
  | nil => rfl
  | cons r rs ih =>
      cases intel <;>
        simp [mkCores, List.range'_succ, ih]

theorem zones_map_id (outputDir : String) (cores : List ZoneCore) :
    (cores.map (attachPath outputDir)).map Zone.zone_id = cores.map ZoneCore.zone_id := by
  rw [List.map_map]
  rfl

theorem zones_map_type (outputDir : String) (cores : List ZoneCore) :
    (cores.map (attachPath outputDir)).map Zone.ztype = cores.map ZoneCore.ztype := by
  rw [List.map_map]
  rfl

theorem mkCores_id_inj (classify : Rect → ZoneType × Rat) (intel : Bool)
    (rects : List Rect) :
    ∀ c ∈ mkCores classify intel 0 rects, ∀ c' ∈ mkCores classify intel 0 rects,
      c.zone_id = c'.zone_id → c = c' := by
  apply List.inj_on_of_nodup_map
  rw [mkCores_map_id]
  exact List.nodup_range' 0 rects.length 1 Nat.one_pos

/-! ### Claims about segmentation -/

/-- C3: for every segmentation result, `reading_order` is a permutation of the
ids of the zones — same multiset (hence same set and same length) and no
duplicates, so also no foreign ids. -/
theorem c3_reading_order_is_permutation_of_zone_ids
    (detect : String → Except String (List Rect)) (classify : Rect → ZoneType × Rat)
    (documentType : String) (intel : Bool) (outputDir : String) :
    List.Perm (segment detect classify documentType intel outputDir).reading_order
      ((segment detect classify documentType intel outputDir).zones.map Zone.zone_id) ∧
    (segment detect classify documentType intel outputDir).reading_order.Nodup := by
  cases hd : detect documentType with
  | error e => simp [segment, hd]
  | ok rects =>
      simp only [segment, hd]
      have hperm : List.Perm
          (if intel then intelligentOrder (mkCores classify intel 0 rects)
            else classicalOrder (mkCores classify intel 0 rects))
          ((mkCores classify intel 0 rects).map ZoneCore.zone_id) := by
        cases intel with
        | true =>
            simp only [if_true]
            exact intelligentOrder_perm (mkCores classify true 0 rects)
        | false =>
            simp only [Bool.false_eq_true, if_false, classicalOrder]
            exact (List.perm_insertionSort rasterLE (mkCores classify false 0 rects)).map
              ZoneCore.zone_id
      constructor
      · rw [zones_map_id]
        exact hperm
      · rw [hperm.nodup_iff, mkCores_map_id]
        exact List.nodup_range' 0 rects.length 1 Nat.one_pos

/-- C9: `segment` is deterministic across repeated calls with independent
output directories: the same detection and classification oracles, document
type and strategy produce the same zone count, the same zone types and the same
`reading_order`, whatever the output directory. -/
theorem c9_segment_deterministic_across_output_dirs
    (detect : String → Except String (List Rect)) (classify : Rect → ZoneType × Rat)
    (documentType : String) (intel : Bool) (d₁ d₂ : String) :
    (segment detect classify documentType intel d₁).zones.length =
      (segment detect classify documentType intel d₂).zones.length ∧
    (segment detect classify documentType intel d₁).zones.map Zone.ztype =
      (segment detect classify documentType intel d₂).zones.map Zone.ztype ∧
    (segment detect classify documentType intel d₁).reading_order =
      (segment detect classify documentType intel d₂).reading_order ∧
    (segment detect classify documentType intel d₁).success =
      (segment detect classify documentType intel d₂).success := by
  cases hd : detect documentType with
  | error e => simp [segment, hd]
  | ok rects =>
      refine ⟨?_, ?_, ?_, ?_⟩
      · simp [segment, hd]
      · simp only [segment, hd]
        rw [zones_map_type, zones_map_type]
      · simp [segment, hd]
      · simp [segment, hd]

theorem attachPath_id (d : String) (c : ZoneCore) :
    (attachPath d c).zone_id = c.zone_id := rfl

theorem attachPath_type (d : String) (c : ZoneCore) :
    (attachPath d c).ztype = c.ztype := rfl

/-- C7: the success discriminant of `segment` separates the two outcomes
exactly: success holds precisely when detection ran, a detection failure yields
`success = false` with the error populated and no partial zones, and zero
detected zones on a readable image yield a successful result with empty zones
and empty reading order. -/
theorem c7_success_discriminant
    (detect : String → Except String (List Rect)) (classify : Rect → ZoneType × Rat)
    (documentType : String) (intel : Bool) (outputDir : String) :
    ((segment detect classify documentType intel outputDir).success = true ↔
      ∃ rects, detect documentType = Except.ok rects) ∧
    (∀ e, detect documentType = Except.error e →
      segment detect classify documentType intel outputDir =
        { success := false, error := some e, zones := [], reading_order := [] }) ∧
    (detect documentType = Except.ok [] →
      segment detect classify documentType intel outputDir =
        { success := true, error := none, zones := [], reading_order := [] }) := by
  cases hd : detect documentType with
  | error e =>
      refine ⟨?_, ?_, ?_⟩
      · simp [segment, hd]
      · intro e' he
        injection he with h
        subst h
        simp [segment, hd]
      · intro h
        simp at h
  | ok rects =>
      refine ⟨?_, ?_, ?_⟩
      · simp only [segment, hd]
        exact ⟨fun _ => ⟨rects, rfl⟩, fun _ => trivial⟩
      · intro e' he
        simp at he
      · intro h
        injection h with h
        subst h
        cases intel with
        | true =>
            simp only [segment, hd]
            rfl
        | false =>
            simp only [segment, hd]
            rfl

/-- Witness for C7 at concrete inputs: a decode failure yields the failure
record, and zero detected zones yield the successful empty record. -/
theorem c7_witness :
    segment (fun _ => Except.error "corrupt image") (fun _ => (ZoneType.unknown, 0))
        "facture" true "out" =
      { success := false, error := some "corrupt image", zones := [],
        reading_order := [] } ∧
    segment (fun _ => Except.ok []) (fun _ => (ZoneType.unknown, 0))
        "facture" true "out" =
      { success := true, error := none, zones := [], reading_order := [] } :=
  ⟨(c7_success_discriminant (fun _ => Except.error "corrupt image")
      (fun _ => (ZoneType.unknown, 0)) "facture" true "out").2.1 "corrupt image" rfl,
    (c7_success_discriminant (fun _ => Except.ok [])
      (fun _ => (ZoneType.unknown, 0)) "facture" true "out").2.2 rfl⟩

/-- C4: in intelligent mode the reading order splits into a front segment
holding exactly the ids of the header zones, a middle segment, and an end
segment holding exactly the ids of the signature and footer zones — wherever
those zones sit geometrically; in particular three zones at geometric
top-to-bottom positions [paragraph, header, footer] yield
`reading_order = [header_id, paragraph_id, footer_id]`. -/
theorem c4_headers_front_enders_back
    (detect : String → Except String (List Rect)) (classify : Rect → ZoneType × Rat)
    (documentType outputDir : String) :
    (∃ hs ms es,
      (segment detect classify documentType true outputDir).reading_order =
        hs ++ ms ++ es ∧
      (∀ z ∈ (segment detect classify documentType true outputDir).zones,
        (z.ztype = ZoneType.header ↔ z.zone_id ∈ hs)) ∧
      (∀ z ∈ (segment detect classify documentType true outputDir).zones,
        ((z.ztype = ZoneType.signature ∨ z.ztype = ZoneType.footer) ↔
          z.zone_id ∈ es))) ∧
    (segment
        (fun _ => Except.ok [⟨0, 0, 100, 10⟩, ⟨0, 20, 100, 10⟩, ⟨0, 40, 100, 10⟩])
        (fun r => if r.y = 0 then (ZoneType.paragraph, 6/10)
          else if r.y = 20 then (ZoneType.header, 9/10)
          else (ZoneType.footer, 8/10))
        "facture" true "out").reading_order = [1, 0, 2] := by
  constructor
  · cases hd : detect documentType with
    | error e =>
        exact ⟨[], [], [], by simp [segment, hd], by simp [segment, hd],
          by simp [segment, hd]⟩
    | ok rects =>
        obtain ⟨l, hl, heq⟩ := intelligentOrder_decomp (mkCores classify true 0 rects)
        refine ⟨(l.filter (fun c => isHeader c)).map ZoneCore.zone_id,
          ((l.filter (fun c => !isHeader c)).filter
            (fun c => !isEnder c)).map ZoneCore.zone_id,
          ((l.filter (fun c => !isHeader c)).filter
            (fun c => isEnder c)).map ZoneCore.zone_id, ?_, ?_, ?_⟩
        · simp only [segment, hd, if_true]
          rw [heq, List.map_append, List.map_append, List.append_assoc]
        · intro z hz
          simp only [segment, hd] at hz
          rcases List.mem_map.mp hz with ⟨c, hc, rfl⟩
          rw [attachPath_type, attachPath_id]
          constructor
          · intro hh
            refine List.mem_map_of_mem ZoneCore.zone_id (List.mem_filter.mpr ?_)
            exact ⟨hl.mem_iff.mpr hc, by simp [isHeader, hh]⟩
          · intro hmem
            rcases List.mem_map.mp hmem with ⟨c', hc', hcid⟩
            have hfil := List.mem_filter.mp hc'
            have hc'cores : c' ∈ mkCores classify true 0 rects :=
              hl.mem_iff.mp hfil.1
            have hcc : c' = c :=
              mkCores_id_inj classify true rects c' hc'cores c hc hcid
            have hhead : c'.ztype = ZoneType.header := by
              have hb := hfil.2
              simpa [isHeader] using hb
            rw [← hcc]
            exact hhead
        · intro z hz
          simp only [segment, hd] at hz
          rcases List.mem_map.mp hz with ⟨c, hc, rfl⟩
          rw [attachPath_type, attachPath_id]
          constructor
          · intro hh
            refine List.mem_map_of_mem ZoneCore.zone_id (List.mem_filter.mpr ?_)
            refine ⟨List.mem_filter.mpr ⟨hl.mem_iff.mpr hc, ?_⟩, ?_⟩
            · rcases hh with hh | hh <;> simp [isHeader, hh]
            · rcases hh with hh | hh <;> simp [isEnder, hh]
          · intro hmem
            rcases List.mem_map.mp hmem with ⟨c', hc', hcid⟩
            have hfil := List.mem_filter.mp hc'
            have hfil2 := List.mem_filter.mp hfil.1
            have hc'cores : c' ∈ mkCores classify true 0 rects :=
              hl.mem_iff.mp hfil2.1
            have hcc : c' = c :=
              mkCores_id_inj classify true rects c' hc'cores c hc hcid
            have hend : c'.ztype = ZoneType.signature ∨ c'.ztype = ZoneType.footer := by
              have hb := hfil.2
              simpa [isEnder] using hb
            rw [← hcc]
            exact hend
  · decide

/-- Witness for C4 at the concrete three-zone scenario: the general part
instantiated at the paragraph/header/footer layout. -/
theorem c4_witness :
    ∃ hs ms es,
      (segment
        (fun _ => Except.ok [⟨0, 0, 100, 10⟩, ⟨0, 20, 100, 10⟩, ⟨0, 40, 100, 10⟩])
        (fun r => if r.y = 0 then (ZoneType.paragraph, 6/10)
          else if r.y = 20 then (ZoneType.header, 9/10)
          else (ZoneType.footer, 8/10))
        "facture" true "out").reading_order = hs ++ ms ++ es ∧
      (∀ z ∈ (segment
        (fun _ => Except.ok [⟨0, 0, 100, 10⟩, ⟨0, 20, 100, 10⟩, ⟨0, 40, 100, 10⟩])
        (fun r => if r.y = 0 then (ZoneType.paragraph, 6/10)
          else if r.y = 20 then (ZoneType.header, 9/10)
          else (ZoneType.footer, 8/10))
        "facture" true "out").zones,
        (z.ztype = ZoneType.header ↔ z.zone_id ∈ hs)) ∧
      (∀ z ∈ (segment
        (fun _ => Except.ok [⟨0, 0, 100, 10⟩, ⟨0, 20, 100, 10⟩, ⟨0, 40, 100, 10⟩])
        (fun r => if r.y = 0 then (ZoneType.paragraph, 6/10)
          else if r.y = 20 then (ZoneType.header, 9/10)
          else (ZoneType.footer, 8/10))
        "facture" true "out").zones,
        ((z.ztype = ZoneType.signature ∨ z.ztype = ZoneType.footer) ↔
          z.zone_id ∈ es)) :=
  (c4_headers_front_enders_back
    (fun _ => Except.ok [⟨0, 0, 100, 10⟩, ⟨0, 20, 100, 10⟩, ⟨0, 40, 100, 10⟩])
    (fun r => if r.y = 0 then (ZoneType.paragraph, 6/10)
      else if r.y = 20 then (ZoneType.header, 9/10)
      else (ZoneType.footer, 8/10))
    "facture" "out").1

end OCRTool
